import Mathlib

/-!
Verification of the request-validation and routing layer of the rotkehlchen
API surface (`rotkehlchen/api/server.py` and `rotkehlchen/api/v1/encoding.py`).

The Python sources are shallowly embedded: each marshmallow field's
`_deserialize` becomes a total Lean function returning `Except String α`
(`Except.error` models a raised `ValidationError` carrying the message),
schema-level validators become functions on the already-deserialized data,
and the `post_load` transformation hooks become explicit functions run only
after validation succeeds.  External collaborators that the code under
`src/` merely imports (checksum computation, BTC/KSM address format checks,
ENS resolution) are passed in as function parameters, so every theorem holds
for all behaviours of those collaborators.
-/

namespace RotkiApi

/-- The three blockchains reachable through `BlockchainField`
(`SupportedBlockchain.BITCOIN / ETHEREUM / KUSAMA` in `rotkehlchen.typing`;
only the variants this API layer produces are modelled). -/
inductive SupportedBlockchain where
  | BITCOIN
  | ETHEREUM
  | KUSAMA
deriving DecidableEq

/-- `BlockchainField._deserialize` (encoding.py lines 324-339): maps the
exact strings 'btc'/'BTC', 'eth'/'ETH', 'ksm'/'KSM' to enum members and
raises a `ValidationError` naming the value otherwise. -/
def blockchainField_deserialize (value : String) : Except String SupportedBlockchain :=
  if value = "btc" ∨ value = "BTC" then .ok .BITCOIN
  else if value = "eth" ∨ value = "ETH" then .ok .ETHEREUM
  else if value = "ksm" ∨ value = "KSM" then .ok .KUSAMA
  else .error s!"Unrecognized value {value} given for blockchain name"

/-- `TaxFreeAfterPeriodField._deserialize` (encoding.py lines 157-179).
The input arrives as a JSON integer (the `int(value)` coercion in the source
cannot fail on an integer input), so the embedding takes an `Int`. -/
def taxFreeAfterPeriodField_deserialize (value : Int) : Except String Int :=
  if value < -1 then
    .error ("The taxfree_after_period value can not be negative, except for " ++
      "the value of -1 to disable the setting")
  else if value = 0 then
    .error "The taxfree_after_period value can not be set to zero"
  else .ok value

/-! ### Exact decimal amounts

Modelled from the spec: `AmountField._deserialize` delegates to
`deserialize_asset_amount` and `FVal` (`rotkehlchen.fval`), which live
outside `src/`.  Per the spec they parse the input "as arbitrary-precision
decimal" and "decimals always serialize as exact decimal strings, never
floating-point-lossy numbers".  A decimal is a mantissa together with the
number of fractional digits; its numeric value is `m / 10 ^ e`. -/
structure Dec where
  m : Int
  e : Nat
deriving DecidableEq

/-- Numeric value of a decimal. -/
def decValue (d : Dec) : ℚ := (d.m : ℚ) / (10 : ℚ) ^ d.e

/-- Numeric value of a character that is a decimal digit. -/
def digitVal (c : Char) : Nat := c.toNat - 48

/-- Value of a big-endian string of digit characters. -/
def digitsVal (ds : List Char) : Nat := ds.foldl (fun a c => 10 * a + digitVal c) 0

/-- Assemble the integer digits and the remainder of an unsigned decimal
literal: the remainder must be empty or a decimal point followed by the
fractional digits, and at least one digit must be present overall. -/
def parseParts (intDs rest : List Char) : Option (Nat × Nat) :=
  match rest with
  | [] => if intDs.isEmpty then none else some (digitsVal intDs, 0)
  | '.' :: fracDs =>
      if fracDs.all Char.isDigit ∧ (intDs ≠ [] ∨ fracDs ≠ []) then
        some (digitsVal (intDs ++ fracDs), fracDs.length)
      else none
  | _ => none

/-- Modelled from the spec: parse an unsigned decimal literal
(`digits`, `digits.digits`, `.digits` or `digits.`) into mantissa and
fractional-digit count, as Python's `Decimal` constructor accepts. -/
def parseUnsigned (cs : List Char) : Option (Nat × Nat) :=
  parseParts (cs.takeWhile Char.isDigit) (cs.dropWhile Char.isDigit)

/-- Modelled from the spec: `deserialize_asset_amount`, parsing a possibly
negative decimal string into an exact decimal value. -/
def parseDec (s : String) : Option Dec :=
  match s.data with
  | [] => none
  | c :: rest =>
      if c = '-' then (parseUnsigned rest).map (fun p => ⟨-(p.1 : Int), p.2⟩)
      else (parseUnsigned (c :: rest)).map (fun p => ⟨(p.1 : Int), p.2⟩)

/-- The character of a decimal digit. -/
def digitChar (d : Nat) : Char := Char.ofNat (48 + d)

/-- Big-endian digit list of `n`, zero-padded on the left to at least
`e + 1` digits so that a decimal point can be inserted. -/
def padDigits (n e : Nat) : List Nat :=
  let little := Nat.digits 10 n
  (little ++ List.replicate (e + 1 - little.length) 0).reverse

/-- Insert a decimal point before the last `e` digit characters
when `e ≠ 0`. -/
def renderDigits (ds : List Char) (e : Nat) : List Char :=
  if e = 0 then ds
  else ds.take (ds.length - e) ++ '.' :: ds.drop (ds.length - e)

/-- Render `n / 10 ^ e` in plain positional form. -/
def renderUnsigned (n e : Nat) : List Char :=
  renderDigits ((padDigits n e).map digitChar) e

/-- Modelled from the spec: `str` on an `FVal`, rendering the exact decimal
value in plain (never scientific, never binary-float) form. -/
def renderDec (d : Dec) : String :=
  if d.m < 0 then String.mk ('-' :: renderUnsigned d.m.natAbs d.e)
  else String.mk (renderUnsigned d.m.natAbs d.e)

/-- `AmountField._deserialize` (encoding.py lines 210-222): parse the string
as an exact decimal, raising a `ValidationError` on failure. -/
def amountField_deserialize (value : String) : Except String Dec :=
  match parseDec value with
  | some d => .ok d
  | none => .error s!"Failed to deserialize an amount entry from string {value}"

/-- `AmountField._serialize` (encoding.py lines 201-208): `str(value)`. -/
def amountField_serialize (value : Dec) : String := renderDec value

/-- `PositiveAmountField._deserialize` (encoding.py lines 225-238): the
`AmountField` value, additionally rejecting amounts `≤ 0`. -/
def positiveAmountField_deserialize (value : String) : Except String Dec :=
  match amountField_deserialize value with
  | .error e => .error e
  | .ok amount =>
      if decValue amount ≤ 0 then
        .error s!"Non-positive amount {value} given. Amount should be > 0"
      else .ok amount

/-! ### Round-trip of the decimal representation -/

/-- Big-endian value of a digit list. -/
def natVal (ds : List Nat) : Nat := ds.foldl (fun a d => 10 * a + d) 0

lemma digitChar_val {d : Nat} (h : d < 10) : digitVal (digitChar d) = d := by
  interval_cases d <;> rfl

lemma digitChar_isDigit {d : Nat} (h : d < 10) : (digitChar d).isDigit = true := by
  interval_cases d <;> rfl

lemma foldl_digits (l : List Nat) (a : Nat) :
    l.foldl (fun a d => 10 * a + d) a = a * 10 ^ l.length + Nat.ofDigits 10 l.reverse := by
  induction l generalizing a with
  | nil => simp
  | cons x xs ih =>
      simp only [List.foldl_cons, ih, List.reverse_cons, Nat.ofDigits_append,
        List.length_reverse, List.length_cons, Nat.ofDigits_singleton]
      ring

lemma digitsVal_map (ds : List Nat) (h : ∀ d ∈ ds, d < 10) (a : Nat) :
    (ds.map digitChar).foldl (fun a c => 10 * a + digitVal c) a =
      ds.foldl (fun a d => 10 * a + d) a := by
  induction ds generalizing a with
  | nil => rfl
  | cons x xs ih =>
      have hx : digitVal (digitChar x) = x := digitChar_val (h x (by simp))
      simp only [List.map_cons, List.foldl_cons, hx]
      exact ih (fun d hd => h d (by simp [hd])) _

lemma padDigits_lt (n e : Nat) : ∀ d ∈ padDigits n e, d < 10 := by
  intro d hd
  unfold padDigits at hd
  simp only [List.mem_reverse, List.mem_append, List.mem_replicate] at hd
  rcases hd with h | h
  · exact Nat.digits_lt_base (by norm_num) h
  · omega

lemma padDigits_length (n e : Nat) : e + 1 ≤ (padDigits n e).length := by
  unfold padDigits
  simp only [List.length_reverse, List.length_append, List.length_replicate]
  omega

lemma natVal_padDigits (n e : Nat) : natVal (padDigits n e) = n := by
  have hrep : ∀ k, Nat.ofDigits 10 (List.replicate k 0) = 0 := by
    intro k
    induction k with
    | zero => rfl
    | succ k ih => simp [List.replicate_succ, Nat.ofDigits_cons, ih]
  unfold natVal padDigits
  rw [foldl_digits]
  simp [Nat.ofDigits_append, Nat.ofDigits_digits, hrep]

lemma takeWhile_all_digits (l : List Char) (h : ∀ c ∈ l, c.isDigit = true) :
    l.takeWhile Char.isDigit = l ∧ l.dropWhile Char.isDigit = [] := by
  induction l with
  | nil => exact ⟨rfl, rfl⟩
  | cons x xs ih =>
      have hx := h x (by simp)
      have hxs := ih (fun c hc => h c (by simp [hc]))
      simp [List.takeWhile_cons, List.dropWhile_cons, hx, hxs.1, hxs.2]

lemma takeWhile_append_dot (l1 l2 : List Char) (h1 : ∀ c ∈ l1, c.isDigit = true) :
    (l1 ++ '.' :: l2).takeWhile Char.isDigit = l1 ∧
      (l1 ++ '.' :: l2).dropWhile Char.isDigit = '.' :: l2 := by
  induction l1 with
  | nil => simp [List.takeWhile_cons, List.dropWhile_cons]
  | cons x xs ih =>
      have hx := h1 x (by simp)
      have hxs := ih (fun c hc => h1 c (by simp [hc]))
      simp [List.takeWhile_cons, List.dropWhile_cons, hx, hxs.1, hxs.2]

lemma map_digitChar_ne_nil (n e : Nat) :
    ∃ d0 ds', (padDigits n e).map digitChar = d0 :: ds' := by
  cases hds : (padDigits n e).map digitChar with
  | nil =>
      exfalso
      have hl : ((padDigits n e).map digitChar).length = 0 := by rw [hds]; rfl
      rw [List.length_map] at hl
      have := padDigits_length n e
      omega
  | cons d0 ds' => exact ⟨d0, ds', rfl⟩

lemma parseUnsigned_renderUnsigned (n e : Nat) :
    parseUnsigned (renderUnsigned n e) = some (n, e) := by
  have hddigits : ∀ c ∈ (padDigits n e).map digitChar, c.isDigit = true := by
    intro c hc
    rcases List.mem_map.1 hc with ⟨d, hd, rfl⟩
    exact digitChar_isDigit (padDigits_lt n e d hd)
  have hdval : digitsVal ((padDigits n e).map digitChar) = n := by
    unfold digitsVal
    rw [digitsVal_map _ (padDigits_lt n e)]
    exact natVal_padDigits n e
  have hlen := padDigits_length n e
  rcases Nat.eq_zero_or_pos e with he | he
  · subst he
    obtain ⟨d0, ds', hds⟩ := map_digitChar_ne_nil n 0
    have hall := takeWhile_all_digits _ hddigits
    rw [renderUnsigned, renderDigits, if_pos rfl]
    rw [parseUnsigned, hall.1, hall.2, parseParts, hds, List.isEmpty_cons]
    rw [if_neg (by simp), ← hds, hdval]
  · have hne : e ≠ 0 := Nat.pos_iff_ne_zero.mp he
    set ds := (padDigits n e).map digitChar with hdsdef
    have hdslen : e + 1 ≤ ds.length := by
      rw [hdsdef, List.length_map]; exact hlen
    have htake : ∀ c ∈ ds.take (ds.length - e), c.isDigit = true :=
      fun c hc => hddigits c (List.mem_of_mem_take hc)
    have hdrop : ∀ c ∈ ds.drop (ds.length - e), c.isDigit = true :=
      fun c hc => hddigits c (List.mem_of_mem_drop hc)
    have hsplit := takeWhile_append_dot (ds.take (ds.length - e)) (ds.drop (ds.length - e)) htake
    have htakene : ds.take (ds.length - e) ≠ [] := by
      intro hnil
      have hl : (ds.take (ds.length - e)).length = ds.length - e := by
        rw [List.length_take]; omega
      rw [hnil] at hl
      have : (0 : Nat) = ds.length - e := hl
      omega
    have hdroplen : (ds.drop (ds.length - e)).length = e := by
      rw [List.length_drop]; omega
    rw [renderUnsigned, renderDigits, if_neg hne]
    rw [parseUnsigned, ← hdsdef, hsplit.1, hsplit.2, parseParts]
    rw [if_pos ⟨List.all_eq_true.2 hdrop, Or.inl htakene⟩]
    rw [List.take_append_drop, hdval, hdroplen]

lemma renderUnsigned_cons (n e : Nat) :
    ∃ c cs, renderUnsigned n e = c :: cs ∧ c.isDigit = true := by
  have hddigits : ∀ c ∈ (padDigits n e).map digitChar, c.isDigit = true := by
    intro c hc
    rcases List.mem_map.1 hc with ⟨d, hd, rfl⟩
    exact digitChar_isDigit (padDigits_lt n e d hd)
  have hlen := padDigits_length n e
  obtain ⟨d0, ds', hds⟩ := map_digitChar_ne_nil n e
  have hd0 : d0.isDigit = true := hddigits d0 (by rw [hds]; simp)
  rcases Nat.eq_zero_or_pos e with he | he
  · subst he
    refine ⟨d0, ds', ?_, hd0⟩
    rw [renderUnsigned, renderDigits, if_pos rfl, hds]
  · have hne : e ≠ 0 := Nat.pos_iff_ne_zero.mp he
    have hdslen : e + 1 ≤ (d0 :: ds').length := by
      rw [← hds, List.length_map]; exact hlen
    obtain ⟨k, hk⟩ : ∃ k, (d0 :: ds').length - e = k + 1 :=
      ⟨(d0 :: ds').length - e - 1, by simp at hdslen ⊢; omega⟩
    refine ⟨d0, ds'.take k ++ '.' :: (d0 :: ds').drop (k + 1), ?_, hd0⟩
    rw [renderUnsigned, renderDigits, if_neg hne, hds, hk, List.take_succ_cons]
    simp [List.cons_append]

lemma parseDec_renderDec (d : Dec) : parseDec (renderDec d) = some d := by
  obtain ⟨c, cs, hcons, hdig⟩ := renderUnsigned_cons d.m.natAbs d.e
  have hcne : c ≠ '-' := by
    intro hc
    rw [hc] at hdig
    exact absurd hdig (by decide)
  rcases lt_or_le d.m 0 with hm | hm
  · rw [renderDec, if_pos hm]
    show parseDec ⟨'-' :: renderUnsigned d.m.natAbs d.e⟩ = some d
    rw [hcons]
    show (parseUnsigned (c :: cs)).map (fun p => (⟨-(p.1 : Int), p.2⟩ : Dec)) = some d
    rw [← hcons, parseUnsigned_renderUnsigned]
    cases d with
    | mk m e =>
        simp only [Option.map_some', Option.some.injEq, Dec.mk.injEq]
        simp only at hm
        exact ⟨by omega, trivial⟩
  · rw [renderDec, if_neg (not_lt.mpr hm)]
    show parseDec ⟨renderUnsigned d.m.natAbs d.e⟩ = some d
    rw [hcons]
    show (if c = '-' then (parseUnsigned cs).map (fun p => (⟨-(p.1 : Int), p.2⟩ : Dec))
      else (parseUnsigned (c :: cs)).map (fun p => (⟨(p.1 : Int), p.2⟩ : Dec))) = some d
    rw [if_neg hcne, ← hcons, parseUnsigned_renderUnsigned]
    cases d with
    | mk m e =>
        simp only [Option.map_some', Option.some.injEq, Dec.mk.injEq]
        simp only at hm
        exact ⟨by omega, trivial⟩

/-! ### Claim theorems: simple fields -/

/-- C1, counterexample: the claim says deserialization succeeds for every
casing of the short codes, but the mixed casing "Btc" is rejected by
`BlockchainField._deserialize`: it is not mapped to the Bitcoin variant. -/
theorem blockchainField_mixed_case_rejected :
    blockchainField_deserialize "Btc" ≠ Except.ok SupportedBlockchain.BITCOIN := by
  have h1 : blockchainField_deserialize "Btc" =
      .error "Unrecognized value Btc given for blockchain name" := rfl
  intro h
  rw [h1] at h
  exact Except.noConfusion h

/-- C1, amended: `BlockchainField._deserialize` maps exactly the all-lower
and all-upper short codes 'btc'/'BTC', 'eth'/'ETH', 'ksm'/'KSM' to the
Bitcoin, Ethereum and Kusama variants; every other string — mixed casings
included — raises a validation error whose message names the offending
value. -/
theorem blockchainField_deserialize_spec (value : String) :
    ((value = "btc" ∨ value = "BTC") →
      blockchainField_deserialize value = .ok .BITCOIN) ∧
    ((value = "eth" ∨ value = "ETH") →
      blockchainField_deserialize value = .ok .ETHEREUM) ∧
    ((value = "ksm" ∨ value = "KSM") →
      blockchainField_deserialize value = .ok .KUSAMA) ∧
    (value ∉ (["btc", "BTC", "eth", "ETH", "ksm", "KSM"] : List String) →
      blockchainField_deserialize value =
        .error s!"Unrecognized value {value} given for blockchain name") := by
  refine ⟨?_, ?_, ?_, ?_⟩
  · rintro (rfl | rfl) <;> rfl
  · rintro (rfl | rfl) <;> rfl
  · rintro (rfl | rfl) <;> rfl
  · intro h
    simp only [List.mem_cons, List.not_mem_nil, or_false, not_or] at h
    obtain ⟨h1, h2, h3, h4, h5, h6⟩ := h
    unfold blockchainField_deserialize
    rw [if_neg (by tauto), if_neg (by tauto), if_neg (by tauto)]

/-- Witness for C1's amended theorem at the concrete inputs "btc" and
"xyz". -/
theorem blockchainField_deserialize_spec_witness :
    blockchainField_deserialize "btc" = .ok .BITCOIN ∧
    blockchainField_deserialize "xyz" =
      .error "Unrecognized value xyz given for blockchain name" :=
  ⟨(blockchainField_deserialize_spec "btc").1 (Or.inl rfl),
   (blockchainField_deserialize_spec "xyz").2.2.2 (by decide)⟩

/-- C7: the tax-free-after-period field accepts -1 (the disabled sentinel)
and every positive integer, and raises a validation error for 0 and for
every integer strictly below -1. -/
theorem taxFreeAfterPeriodField_spec (value : Int) :
    (value = -1 → taxFreeAfterPeriodField_deserialize value = .ok (-1)) ∧
    (0 < value → taxFreeAfterPeriodField_deserialize value = .ok value) ∧
    (taxFreeAfterPeriodField_deserialize 0 =
      .error "The taxfree_after_period value can not be set to zero") ∧
    (value < -1 → taxFreeAfterPeriodField_deserialize value =
      .error ("The taxfree_after_period value can not be negative, except for " ++
        "the value of -1 to disable the setting")) := by
  unfold taxFreeAfterPeriodField_deserialize
  refine ⟨?_, ?_, rfl, ?_⟩
  · rintro rfl; rfl
  · intro h
    rw [if_neg (by omega), if_neg (by omega)]
  · intro h
    rw [if_pos h]

/-- Witness for C7 at the concrete inputs -1, 5 and -2. -/
theorem taxFreeAfterPeriodField_spec_witness :
    taxFreeAfterPeriodField_deserialize (-1) = .ok (-1) ∧
    taxFreeAfterPeriodField_deserialize 5 = .ok 5 ∧
    taxFreeAfterPeriodField_deserialize (-2) =
      .error ("The taxfree_after_period value can not be negative, except for " ++
        "the value of -1 to disable the setting") :=
  ⟨(taxFreeAfterPeriodField_spec (-1)).1 rfl,
   (taxFreeAfterPeriodField_spec 5).2.1 (by norm_num),
   (taxFreeAfterPeriodField_spec (-2)).2.2.2 (by norm_num)⟩

/-- C5: for every valid decimal string, deserializing and then serializing
the resulting amount yields a decimal string that parses back to the same
numeric value — the round trip is numerically lossless. -/
theorem amountField_roundtrip (s : String) (d : Dec)
    (h : amountField_deserialize s = .ok d) :
    ∃ d2, amountField_deserialize (amountField_serialize d) = .ok d2 ∧
      decValue d2 = decValue d := by
  refine ⟨d, ?_, rfl⟩
  unfold amountField_deserialize amountField_serialize
  rw [parseDec_renderDec]

/-- Witness for C5 at the concrete decimal string "1.10". -/
theorem amountField_roundtrip_witness :
    ∃ d2, amountField_deserialize (amountField_serialize ⟨110, 2⟩) = .ok d2 ∧
      decValue d2 = decValue ⟨110, 2⟩ :=
  amountField_roundtrip "1.10" ⟨110, 2⟩ rfl

/-- C8: the positive-amount field rejects every input whose parsed decimal
value is ≤ 0 with the non-positive-amount message, and returns the parsed
value for every strictly positive input. -/
theorem positiveAmountField_spec (value : String) (d : Dec)
    (h : amountField_deserialize value = .ok d) :
    (decValue d ≤ 0 →
      positiveAmountField_deserialize value =
        .error s!"Non-positive amount {value} given. Amount should be > 0") ∧
    (0 < decValue d → positiveAmountField_deserialize value = .ok d) := by
  unfold positiveAmountField_deserialize
  rw [h]
  dsimp only
  constructor
  · intro hle
    rw [if_pos hle]
  · intro hlt
    rw [if_neg (not_le.mpr hlt)]

/-- Witness for C8 at the concrete inputs "0" and "0.00000001". -/
theorem positiveAmountField_spec_witness :
    positiveAmountField_deserialize "0" =
      .error "Non-positive amount 0 given. Amount should be > 0" ∧
    positiveAmountField_deserialize "0.00000001" = .ok ⟨1, 8⟩ :=
  ⟨(positiveAmountField_spec "0" ⟨0, 0⟩ rfl).1 (by norm_num [decValue]),
   (positiveAmountField_spec "0.00000001" ⟨1, 8⟩ rfl).2 (by norm_num [decValue])⟩

/-! ### Percentages and the Ethereum token schema -/

/-- `FloatingPercentageField._deserialize` (encoding.py lines 293-321):
parse as an exact decimal (`FVal(value)`), reject values below 0 or above
100, then divide by 100 so the stored weight is a 0-1 fraction.  The
`ValueError` text raised by `FVal` on an unparseable string lives outside
`src/`, so that message is modelled generically. -/
def floatingPercentageField_deserialize (value : String) : Except String ℚ :=
  match parseDec value with
  | none => .error s!"Could not convert {value} to a decimal"
  | some d =>
      if decValue d < 0 then .error "Percentage field can not be negative"
      else if decValue d > 100 then .error "Percentage field can not be greater than 100"
      else .ok (decValue d / 100)

/-- One underlying-token entry after field deserialization
(`UnderlyingTokenInfoSchema`, encoding.py lines 1457-1459): a checksummed
address and a weight already normalized to a 0-1 fraction. -/
structure UnderlyingTokenInfo where
  address : String
  weight : ℚ
deriving DecidableEq

/-- The error for an explicitly empty underlying-token list (encoding.py
lines 1489-1492). -/
def emptyUnderlyingTokensMsg (address : String) : String :=
  s!"Gave an empty list for underlying tokens of {address}. " ++
    "If you need to specify no underlying tokens give a null value"

/-- The error for an underlying-token weight sum above 100% (encoding.py
lines 1495-1498); the sum is reported scaled back to a percentage. -/
def weightsExceedMsg (address : String) (weight_sum : ℚ) : String :=
  s!"The sum of underlying token weights for {address} " ++
    s!"is {weight_sum * 100} and exceeds 100%"

/-- `EthereumTokenSchema.validate_ethereum_token_schema` (encoding.py lines
1480-1498): an explicitly empty underlying-token list is rejected with a
message suggesting a null value, and a weight sum above 1 (100%) is
rejected. -/
def validate_ethereum_token_schema (address : String)
    (underlying_tokens : Option (List UnderlyingTokenInfo)) : Except String Unit :=
  match underlying_tokens with
  | none => .ok ()
  | some given =>
      if given = [] then .error (emptyUnderlyingTokensMsg address)
      else
        let weight_sum := (given.map (fun x => x.weight)).sum
        if weight_sum > 1 then .error (weightsExceedMsg address weight_sum)
        else .ok ()

/-- C6: the token schema rejects an underlying-token list whose weights sum
to more than 1, accepts a sum of exactly 1, and rejects an explicitly empty
list with a message suggesting null; the percentage field parses an exact
decimal, rejects values below 0 or above 100, and stores the weight divided
by 100. -/
theorem ethereumTokenSchema_weights_spec (address : String)
    (tokens : List UnderlyingTokenInfo) (value : String) (d : Dec) :
    (validate_ethereum_token_schema address (some []) =
      .error (emptyUnderlyingTokensMsg address)) ∧
    ((tokens.map (fun x => x.weight)).sum > 1 → tokens ≠ [] →
      validate_ethereum_token_schema address (some tokens) =
        .error (weightsExceedMsg address (tokens.map (fun x => x.weight)).sum)) ∧
    ((tokens.map (fun x => x.weight)).sum = 1 → tokens ≠ [] →
      validate_ethereum_token_schema address (some tokens) = .ok ()) ∧
    (parseDec value = some d → 0 ≤ decValue d → decValue d ≤ 100 →
      floatingPercentageField_deserialize value = .ok (decValue d / 100)) ∧
    (parseDec value = some d → decValue d < 0 →
      floatingPercentageField_deserialize value =
        .error "Percentage field can not be negative") ∧
    (parseDec value = some d → 100 < decValue d →
      floatingPercentageField_deserialize value =
        .error "Percentage field can not be greater than 100") := by
  refine ⟨rfl, ?_, ?_, ?_, ?_, ?_⟩
  · intro hsum hne
    unfold validate_ethereum_token_schema
    dsimp only
    rw [if_neg hne]
    rw [if_pos hsum]
  · intro hsum hne
    unfold validate_ethereum_token_schema
    dsimp only
    rw [if_neg hne]
    rw [if_neg (by rw [hsum]; exact lt_irrefl 1)]
  · intro hp h0 h100
    unfold floatingPercentageField_deserialize
    rw [hp]
    dsimp only
    rw [if_neg (not_lt.mpr h0), if_neg (not_lt.mpr h100)]
  · intro hp hneg
    unfold floatingPercentageField_deserialize
    rw [hp]
    dsimp only
    rw [if_pos hneg]
  · intro hp hgt
    unfold floatingPercentageField_deserialize
    rw [hp]
    dsimp only
    rw [if_neg (not_lt.mpr (le_of_lt (lt_of_le_of_lt (by norm_num) hgt))), if_pos hgt]

/-- Witness for C6: a single token of weight 6/5 (120%) is rejected, a
single token of weight 1 (100%) is accepted, an empty list is rejected, and
the percentage strings "50", "-5" and "120" behave as claimed. -/
theorem ethereumTokenSchema_weights_spec_witness :
    validate_ethereum_token_schema "0xT" (some []) =
      .error (emptyUnderlyingTokensMsg "0xT") ∧
    validate_ethereum_token_schema "0xT" (some [⟨"0xA", 6 / 5⟩]) =
      .error (weightsExceedMsg "0xT" (6 / 5)) ∧
    validate_ethereum_token_schema "0xT" (some [⟨"0xA", 1⟩]) = .ok () ∧
    floatingPercentageField_deserialize "50" = .ok (decValue ⟨50, 0⟩ / 100) ∧
    floatingPercentageField_deserialize "-5" =
      .error "Percentage field can not be negative" ∧
    floatingPercentageField_deserialize "120" =
      .error "Percentage field can not be greater than 100" := by
  refine ⟨(ethereumTokenSchema_weights_spec "0xT" [] "" ⟨0, 0⟩).1, ?_, ?_, ?_, ?_, ?_⟩
  · have h := (ethereumTokenSchema_weights_spec "0xT" [⟨"0xA", 6 / 5⟩] "" ⟨0, 0⟩).2.1
      (by norm_num) (by simp)
    simpa using h
  · exact (ethereumTokenSchema_weights_spec "0xT" [⟨"0xA", 1⟩] "" ⟨0, 0⟩).2.2.1
      (by norm_num) (by simp)
  · exact (ethereumTokenSchema_weights_spec "0xT" [] "50" ⟨50, 0⟩).2.2.2.1 rfl
      (by norm_num [decValue]) (by norm_num [decValue])
  · exact (ethereumTokenSchema_weights_spec "0xT" [] "-5" ⟨-5, 0⟩).2.2.2.2.1 rfl
      (by norm_num [decValue])
  · exact (ethereumTokenSchema_weights_spec "0xT" [] "120" ⟨120, 0⟩).2.2.2.2.2 rfl
      (by norm_num [decValue])

/-! ### Price-oracle list validation -/

/-- The error of `_validate_current_price_oracles` (encoding.py lines
862-868): it enumerates both the given oracles and the full supported
set. -/
def currentOraclesMsg {O : Type} (toName : O → String) (allOracles oracles : List O) :
    String :=
  let oracle_names := String.intercalate ", " (oracles.map toName)
  let supported_oracle_names := String.intercalate ", " (allOracles.map toName)
  s!"Invalid current price oracles in: {oracle_names}. " ++
    s!"Supported oracles are: {supported_oracle_names}. " ++
    "Check there are no repeated ones."

/-- The error of `_validate_historical_price_oracles` (encoding.py lines
879-885). -/
def historicalOraclesMsg {O : Type} (toName : O → String) (allOracles oracles : List O) :
    String :=
  let oracle_names := String.intercalate ", " (oracles.map toName)
  let supported_oracle_names := String.intercalate ", " (allOracles.map toName)
  s!"Invalid historical price oracles in: {oracle_names}. " ++
    s!"Supported oracles are: {supported_oracle_names}. " ++
    "Check there are no repeated ones."

/-- `_validate_current_price_oracles` (encoding.py lines 854-868),
parameterized by the oracle enum `O`, its string form and its member list
(the `CurrentPriceOracle` enum lives outside `src/`).  The Python
`len(set(...))` is the length of the deduplicated list. -/
def validate_current_price_oracles {O : Type} [DecidableEq O] (toName : O → String)
    (allOracles : List O) (current_price_oracles : List O) : Except String Unit :=
  if current_price_oracles.length = 0 ∨
      current_price_oracles.length ≠ current_price_oracles.dedup.length then
    .error (currentOraclesMsg toName allOracles current_price_oracles)
  else .ok ()

/-- `_validate_historical_price_oracles` (encoding.py lines 871-885). -/
def validate_historical_price_oracles {O : Type} [DecidableEq O] (toName : O → String)
    (allOracles : List O) (historical_price_oracles : List O) : Except String Unit :=
  if historical_price_oracles.length = 0 ∨
      historical_price_oracles.length ≠ historical_price_oracles.dedup.length then
    .error (historicalOraclesMsg toName allOracles historical_price_oracles)
  else .ok ()

lemma nodup_iff_dedup_length {O : Type} [DecidableEq O] (l : List O) :
    l.Nodup ↔ l.length = l.dedup.length := by
  constructor
  · intro h
    rw [h.dedup]
  · intro h
    have hsub : l.dedup.Sublist l := l.dedup_sublist
    have heq : l.dedup = l := hsub.eq_of_length h.symm
    rw [← heq]
    exact l.nodup_dedup

/-- C9: both list-of-oracles validators raise, with a message enumerating
the given input and the full supported-oracle set, exactly when the list is
empty or contains a duplicate; they succeed on every non-empty duplicate-free
list of oracles. -/
theorem priceOracles_validation_spec {O : Type} [inst : DecidableEq O]
    (toName : O → String) (allOracles oracles : List O) :
    (oracles = [] ∨ ¬ oracles.Nodup →
      validate_current_price_oracles toName allOracles oracles =
        .error (currentOraclesMsg toName allOracles oracles) ∧
      validate_historical_price_oracles toName allOracles oracles =
        .error (historicalOraclesMsg toName allOracles oracles)) ∧
    (oracles ≠ [] → oracles.Nodup →
      validate_current_price_oracles toName allOracles oracles = .ok () ∧
      validate_historical_price_oracles toName allOracles oracles = .ok ()) := by
  constructor
  · intro h
    have hcond : oracles.length = 0 ∨ oracles.length ≠ oracles.dedup.length := by
      rcases h with h | h
      · exact Or.inl (by rw [h]; rfl)
      · exact Or.inr (fun hlen => h ((nodup_iff_dedup_length oracles).mpr hlen))
    constructor
    · unfold validate_current_price_oracles
      rw [if_pos hcond]
    · unfold validate_historical_price_oracles
      rw [if_pos hcond]
  · intro hne hnodup
    have hcond : ¬ (oracles.length = 0 ∨ oracles.length ≠ oracles.dedup.length) := by
      rw [not_or]
      refine ⟨fun h0 => hne (List.length_eq_zero.mp h0), ?_⟩
      rw [not_not]
      exact (nodup_iff_dedup_length oracles).mp hnodup
    constructor
    · unfold validate_current_price_oracles
      rw [if_neg hcond]
    · unfold validate_historical_price_oracles
      rw [if_neg hcond]

/-- Witness for C9 with the oracle enum modelled by the strings "A", "B":
the duplicate list ["A", "A"] raises in both validators and the distinct
list ["A", "B"] passes both. -/
theorem priceOracles_validation_spec_witness :
    (validate_current_price_oracles (fun s => s) ["A", "B"] ["A", "A"] =
      .error (currentOraclesMsg (fun s => s) ["A", "B"] ["A", "A"]) ∧
     validate_historical_price_oracles (fun s => s) ["A", "B"] ["A", "A"] =
      .error (historicalOraclesMsg (fun s => s) ["A", "B"] ["A", "A"])) ∧
    (validate_current_price_oracles (fun s => s) ["A", "B"] ["A", "B"] = .ok () ∧
     validate_historical_price_oracles (fun s => s) ["A", "B"] ["A", "B"] = .ok ()) :=
  ⟨(priceOracles_validation_spec (fun s => s) ["A", "B"] ["A", "A"]).1
      (Or.inr (by decide)),
   (priceOracles_validation_spec (fun s => s) ["A", "B"] ["A", "B"]).2
      (by decide) (by decide)⟩

/-! ### Route registration -/

/-- A `URLS` entry (server.py lines 96-101): path pattern, handler class
name, and the explicit endpoint name when the source uses a 3-tuple. -/
structure UrlEntry where
  route : String
  resource : String
  endpoint : Option String
deriving DecidableEq

/-- Python's `str.lower()` on a handler class name: per-character
lower-casing. -/
def lowerString (s : String) : String := String.mk (s.data.map Char.toLower)

/-- The endpoint name `setup_urls` resolves for an entry (server.py lines
210-215): the explicit third tuple element when present, otherwise the
handler class name lower-cased. -/
def resolvedEndpoint (u : UrlEntry) : String :=
  match u.endpoint with
  | some e => e
  | none => lowerString u.resource

set_option maxHeartbeats 2000000 in
/-- `URLS_V1` (server.py lines 104-199). -/
def URLS_V1 : List UrlEntry := [
  ⟨"/users", "UsersResource", none⟩,
  ⟨"/watchers", "WatchersResource", none⟩,
  ⟨"/users/<string:name>", "UsersByNameResource", none⟩,
  ⟨"/users/<string:name>/password", "UserPasswordChangeResource", none⟩,
  ⟨"/settings", "SettingsResource", none⟩,
  ⟨"/tasks/", "AsyncTasksResource", none⟩,
  ⟨"/tasks/<int:task_id>", "AsyncTasksResource", some "specific_async_tasks_resource"⟩,
  ⟨"/exchange_rates", "ExchangeRatesResource", none⟩,
  ⟨"/external_services/", "ExternalServicesResource", none⟩,
  ⟨"/oracles", "OraclesResource", none⟩,
  ⟨"/oracles/<string:oracle>/cache", "NamedOracleCacheResource", none⟩,
  ⟨"/exchanges", "ExchangesResource", none⟩,
  ⟨"/exchanges/balances", "ExchangeBalancesResource", none⟩,
  ⟨"/exchanges/balances/<string:name>", "ExchangeBalancesResource",
    some "named_exchanges_balances_resource"⟩,
  ⟨"/assets/<string:asset>/icon", "AssetIconsResource", none⟩,
  ⟨"/assets/<string:asset>/icon/<string:size>", "AssetIconsResource",
    some "specific_size_asset_icons_resource"⟩,
  ⟨"/trades", "TradesResource", none⟩,
  ⟨"/ledgeractions", "LedgerActionsResource", none⟩,
  ⟨"/asset_movements", "AssetMovementsResource", none⟩,
  ⟨"/tags", "TagsResource", none⟩,
  ⟨"/exchanges/data/", "ExchangesDataResource", none⟩,
  ⟨"/exchanges/data/<string:name>", "ExchangesDataResource",
    some "named_exchanges_data_resource"⟩,
  ⟨"/balances/blockchains", "BlockchainBalancesResource", none⟩,
  ⟨"/balances/blockchains/<string:blockchain>", "BlockchainBalancesResource",
    some "named_blockchain_balances_resource"⟩,
  ⟨"/balances/", "AllBalancesResource", none⟩,
  ⟨"/balances/manual", "ManuallyTrackedBalancesResource", none⟩,
  ⟨"/statistics/netvalue", "StatisticsNetvalueResource", none⟩,
  ⟨"/statistics/balance/<string:asset>", "StatisticsAssetBalanceResource", none⟩,
  ⟨"/statistics/value_distribution", "StatisticsValueDistributionResource", none⟩,
  ⟨"/statistics/renderer", "StatisticsRendererResource", none⟩,
  ⟨"/messages/", "MessagesResource", none⟩,
  ⟨"/periodic/", "PeriodicDataResource", none⟩,
  ⟨"/history/", "HistoryProcessingResource", none⟩,
  ⟨"/history/status", "HistoryStatusResource", none⟩,
  ⟨"/history/export/", "HistoryExportingResource", none⟩,
  ⟨"/history/download/", "HistoryDownloadingResource", none⟩,
  ⟨"/queried_addresses", "QueriedAddressesResource", none⟩,
  ⟨"/blockchains/ETH/transactions", "EthereumTransactionsResource", none⟩,
  ⟨"/blockchains/ETH/transactions/<string:address>", "EthereumTransactionsResource",
    some "per_address_ethereum_transactions_resource"⟩,
  ⟨"/blockchains/ETH2/stake/deposits", "Eth2StakeDepositsResource", none⟩,
  ⟨"/blockchains/ETH2/stake/details", "Eth2StakeDetailsResource", none⟩,
  ⟨"/blockchains/ETH/defi", "DefiBalancesResource", none⟩,
  ⟨"/blockchains/ETH/airdrops", "EthereumAirdropsResource", none⟩,
  ⟨"/blockchains/ETH/modules/<string:module_name>/data", "NamedEthereumModuleDataResource",
    none⟩,
  ⟨"/blockchains/ETH/modules/data", "EthereumModuleDataResource", none⟩,
  ⟨"/blockchains/ETH/modules/", "EthereumModuleResource", none⟩,
  ⟨"/blockchains/ETH/modules/makerdao/dsrbalance", "MakerdaoDSRBalanceResource", none⟩,
  ⟨"/blockchains/ETH/modules/makerdao/dsrhistory", "MakerdaoDSRHistoryResource", none⟩,
  ⟨"/blockchains/ETH/modules/makerdao/vaults", "MakerdaoVaultsResource", none⟩,
  ⟨"/blockchains/ETH/modules/makerdao/vaultdetails", "MakerdaoVaultDetailsResource", none⟩,
  ⟨"/blockchains/ETH/modules/aave/balances", "AaveBalancesResource", none⟩,
  ⟨"/blockchains/ETH/modules/aave/history", "AaveHistoryResource", none⟩,
  ⟨"/blockchains/ETH/modules/adex/balances", "AdexBalancesResource", none⟩,
  ⟨"/blockchains/ETH/modules/adex/history", "AdexHistoryResource", none⟩,
  ⟨"/blockchains/ETH/modules/balancer/balances", "BalancerBalancesResource", none⟩,
  ⟨"/blockchains/ETH/modules/balancer/history/trades", "BalancerTradesHistoryResource", none⟩,
  ⟨"/blockchains/ETH/modules/balancer/history/events", "BalancerEventsHistoryResource", none⟩,
  ⟨"/blockchains/ETH/modules/compound/balances", "CompoundBalancesResource", none⟩,
  ⟨"/blockchains/ETH/modules/compound/history", "CompoundHistoryResource", none⟩,
  ⟨"/blockchains/ETH/modules/uniswap/balances", "UniswapBalancesResource", none⟩,
  ⟨"/blockchains/ETH/modules/uniswap/history/events", "UniswapEventsHistoryResource", none⟩,
  ⟨"/blockchains/ETH/modules/uniswap/history/trades", "UniswapTradesHistoryResource", none⟩,
  ⟨"/blockchains/ETH/modules/yearn/vaults/balances", "YearnVaultsBalancesResource", none⟩,
  ⟨"/blockchains/ETH/modules/yearn/vaults/history", "YearnVaultsHistoryResource", none⟩,
  ⟨"/blockchains/ETH/modules/loopring/balances", "LoopringBalancesResource", none⟩,
  ⟨"/blockchains/<string:blockchain>", "BlockchainsAccountsResource", none⟩,
  ⟨"/blockchains/BTC/xpub", "BTCXpubResource", none⟩,
  ⟨"/assets", "OwnedAssetsResource", none⟩,
  ⟨"/assets/all", "AllAssetsResource", none⟩,
  ⟨"/assets/ethereum", "EthereumAssetsResource", none⟩,
  ⟨"/assets/prices/current", "CurrentAssetsPriceResource", none⟩,
  ⟨"/assets/prices/historical", "HistoricalAssetsPriceResource", none⟩,
  ⟨"/assets/ignored", "IgnoredAssetsResource", none⟩,
  ⟨"/actions/ignored", "IgnoredActionsResource", none⟩,
  ⟨"/version", "VersionResource", none⟩,
  ⟨"/ping", "PingResource", none⟩,
  ⟨"/import", "DataImportResource", none⟩]

/-- `setup_urls` (server.py lines 205-223), folded over the table while
tracking the endpoint names registered so far.  Modelled from the spec for
the duplicate case: `flask_api_context.add_resource` is framework code
outside `src/`, and per the spec registering a second resource under an
already-taken endpoint name must fail at setup time, so that case returns
an error naming the endpoint. -/
def dupEndpointMsg (ep : String) : String :=
  s!"Duplicate endpoint name {ep} registered at setup"

def setup_urls (registered : List String) : List UrlEntry → Except String (List String)
  | [] => .ok registered
  | u :: rest =>
      if resolvedEndpoint u ∈ registered then .error (dupEndpointMsg (resolvedEndpoint u))
      else setup_urls (resolvedEndpoint u :: registered) rest

lemma setup_urls_ok_of_nodup (urls : List UrlEntry) :
    ∀ registered : List String, (urls.map resolvedEndpoint).Nodup →
      (∀ x ∈ urls.map resolvedEndpoint, x ∉ registered) →
      ∃ l, setup_urls registered urls = .ok l := by
  induction urls with
  | nil => exact fun registered _ _ => ⟨registered, rfl⟩
  | cons u rest ih =>
      intro registered hnodup hdisj
      simp only [List.map_cons, List.nodup_cons] at hnodup
      have hne : resolvedEndpoint u ∉ registered := hdisj _ (by simp)
      rw [setup_urls, if_neg hne]
      refine ih (resolvedEndpoint u :: registered) hnodup.2 ?_
      intro x hx
      simp only [List.mem_cons, not_or]
      exact ⟨fun he => hnodup.1 (he ▸ hx), hdisj x (by simp [hx])⟩

lemma setup_urls_error_of_dup (urls : List UrlEntry) :
    ∀ registered : List String,
      ¬ ((urls.map resolvedEndpoint).Nodup ∧
        ∀ x ∈ urls.map resolvedEndpoint, x ∉ registered) →
      ∃ ep, setup_urls registered urls = .error (dupEndpointMsg ep) := by
  induction urls with
  | nil => exact fun registered h => absurd ⟨List.nodup_nil, by simp⟩ h
  | cons u rest ih =>
      intro registered h
      by_cases hmem : resolvedEndpoint u ∈ registered
      · exact ⟨resolvedEndpoint u, by rw [setup_urls, if_pos hmem]⟩
      · have hrec : ¬ ((rest.map resolvedEndpoint).Nodup ∧
            ∀ x ∈ rest.map resolvedEndpoint, x ∉ resolvedEndpoint u :: registered) := by
          rintro ⟨hn, hd⟩
          apply h
          constructor
          · simp only [List.map_cons, List.nodup_cons]
            exact ⟨fun hmem2 => (hd _ hmem2) (by simp), hn⟩
          · intro x hx
            simp only [List.map_cons, List.mem_cons] at hx
            rcases hx with rfl | hx
            · exact hmem
            · exact fun hr => (hd x hx) (by simp [hr])
        obtain ⟨ep, hep⟩ := ih (resolvedEndpoint u :: registered) hrec
        exact ⟨ep, by rw [setup_urls, if_neg hmem]; exact hep⟩

set_option maxHeartbeats 2000000 in

/-- C2: the endpoint names resolved for `URLS_V1` — handler class name
lower-cased, or the explicit third tuple element — are pairwise distinct,
so registration of the real table succeeds; and for every table in which
two entries resolve to the same endpoint name, registration fails at setup
time, before any request is served. -/
theorem setup_urls_endpoint_uniqueness :
    (URLS_V1.map resolvedEndpoint).Nodup ∧
    (∃ l, setup_urls [] URLS_V1 = .ok l) ∧
    (∀ urls : List UrlEntry, ¬ (urls.map resolvedEndpoint).Nodup →
      ∃ ep, setup_urls [] urls = .error (dupEndpointMsg ep)) := by
  have hnodup : (URLS_V1.map resolvedEndpoint).Nodup := by decide
  refine ⟨hnodup, ?_, ?_⟩
  · exact setup_urls_ok_of_nodup URLS_V1 [] hnodup (by simp)
  · intro urls hdup
    exact setup_urls_error_of_dup urls [] (fun hc => hdup hc.1)

/-- Witness for C2: a two-entry table whose entries both resolve to the
endpoint name "r" fails at setup. -/
theorem setup_urls_endpoint_uniqueness_witness :
    ∃ ep, setup_urls [] [⟨"/a", "R", none⟩, ⟨"/b", "R", none⟩] =
      .error (dupEndpointMsg ep) :=
  setup_urls_endpoint_uniqueness.2.2 [⟨"/a", "R", none⟩, ⟨"/b", "R", none⟩] (by decide)

/-! ### Blockchain account schema validation -/

/-- The duplicate-address error of `_validate_blockchain_account_schemas`
(encoding.py lines 1209-1211, 1226-1228, 1243-1245). -/
def dupAddressMsg (address : String) : String :=
  s!"Address {address} appears multiple times in the request data"

/-- Python's `str.endswith('.eth')` on an address string. -/
def endsWithDotEth (address : String) : Bool :=
  List.isSuffixOf ".eth".data address.data

/-- The per-address step of the ETHEREUM branch of
`_validate_blockchain_account_schemas` (encoding.py lines 1192-1206): an
ENS-style name passes through; any other address must checksum.
`to_checksum_address` is external (`eth_utils`); `none` models the raised
`ValueError`/`TypeError`. -/
def ethNormalize (to_checksum_address : String → Option String)
    (address_string : String) : Except String String :=
  if endsWithDotEth address_string then .ok address_string
  else
    match to_checksum_address address_string with
    | some address => .ok address
    | none => .error s!"Given value {address_string} is not an ethereum address"

/-- The per-address step of the BITCOIN branch (encoding.py lines
1216-1224): an address must be an ENS-style name or pass
`is_valid_btc_address` (external, passed in); no rewriting occurs. -/
def btcNormalize (is_valid_btc_address : String → Bool)
    (address : String) : Except String String :=
  if ¬ endsWithDotEth address ∧ ¬ is_valid_btc_address address then
    .error s!"Given value {address} is not a valid bitcoin address"
  else .ok address

/-- The per-address step of the KUSAMA branch (encoding.py lines
1233-1241). -/
def ksmNormalize (is_valid_kusama_address : String → Bool)
    (address : String) : Except String String :=
  if ¬ endsWithDotEth address ∧ ¬ is_valid_kusama_address address then
    .error s!"Given value {address} is not a valid kusama address"
  else .ok address

/-- The per-chain address step selected by the `data['blockchain']`
dispatch of `_validate_blockchain_account_schemas`. -/
def chainNormalize (to_checksum_address : String → Option String)
    (is_valid_btc_address is_valid_kusama_address : String → Bool) :
    SupportedBlockchain → String → Except String String
  | .ETHEREUM => ethNormalize to_checksum_address
  | .BITCOIN => btcNormalize is_valid_btc_address
  | .KUSAMA => ksmNormalize is_valid_kusama_address

/-- The loop shared by all three branches of
`_validate_blockchain_account_schemas`: run the per-address step, then
reject an address whose (normalized) form is already in `given_addresses`
(the `seen` accumulator). -/
def validateAccountsLoop (normalize : String → Except String String) :
    List String → List String → Except String Unit
  | _seen, [] => .ok ()
  | seen, a :: rest =>
      match normalize a with
      | .error e => .error e
      | .ok address =>
          if address ∈ seen then .error (dupAddressMsg address)
          else validateAccountsLoop normalize (address :: seen) rest

/-- `_validate_blockchain_account_schemas` (encoding.py lines 1184-1247)
applied to the addresses extracted by `address_getter` (the identity for
the delete schema, the 'address' projection for put/patch). -/
def validate_blockchain_account_schemas {α : Type}
    (to_checksum_address : String → Option String)
    (is_valid_btc_address is_valid_kusama_address : String → Bool)
    (blockchain : SupportedBlockchain) (accounts : List α)
    (address_getter : α → String) : Except String Unit :=
  validateAccountsLoop
    (chainNormalize to_checksum_address is_valid_btc_address is_valid_kusama_address blockchain)
    [] (accounts.map address_getter)

/-- `_transform_btc_address` (encoding.py lines 1250-1282): ENS-style names
are resolved through the external resolver and the stored scriptpubkey
decoded; other addresses pass through unchanged. -/
def transform_btc_address (ens_lookup_btc : String → Option String)
    (scriptpubkey_to_btc_address : String → Option String)
    (given_address : String) : Except String String :=
  if ¬ endsWithDotEth given_address then .ok given_address
  else
    match ens_lookup_btc given_address with
    | none => .error s!"Given ENS address {given_address} could not be resolved for Bitcoin"
    | some resolved_address =>
        match scriptpubkey_to_btc_address resolved_address with
        | none =>
            .error (s!"Given ENS address {given_address} does not contain a valid Bitcoin " ++
              s!"scriptpubkey: {resolved_address}. Bitcoin address can\x27t be obtained.")
        | some address => .ok address

/-- `_transform_eth_address` (encoding.py lines 1285-1302): checksum the
address, falling back to ENS resolution for names; an unresolvable name is
a validation error (a resolver result that itself fails to checksum models
the propagated `ValueError`). -/
def transform_eth_address (to_checksum_address : String → Option String)
    (ens_lookup : String → Option String) (given_address : String) : Except String String :=
  match to_checksum_address given_address with
  | some address => .ok address
  | none =>
      match ens_lookup given_address with
      | none => .error s!"Given ENS address {given_address} could not be resolved"
      | some resolved_address =>
          match to_checksum_address resolved_address with
          | some address => .ok address
          | none => .error s!"Given value {resolved_address} is not an ethereum address"

/-- `_transform_ksm_address` (encoding.py lines 1305-1347). -/
def transform_ksm_address (ens_lookup_ksm : String → Option String)
    (get_kusama_address_from_public_key : String → Option String)
    (given_address : String) : Except String String :=
  if ¬ endsWithDotEth given_address then .ok given_address
  else
    match ens_lookup_ksm given_address with
    | none => .error s!"Given ENS address {given_address} could not be resolved for Kusama"
    | some resolved_address =>
        match get_kusama_address_from_public_key resolved_address with
        | none =>
            .error (s!"Given ENS address {given_address} does not contain a valid " ++
              s!"Substrate public key: {resolved_address}. Kusama address can\x27t be obtained.")
        | some address => .ok address

/-- `BlockchainAccountsDeleteSchema.transform_data` (encoding.py lines
1415-1433): map the per-chain transformation over the accounts; the first
raised error aborts the whole batch (list comprehensions propagate the
exception). -/
def blockchainAccountsDelete_transform_data
    (to_checksum_address : String → Option String)
    (ens_lookup_btc ens_lookup_eth ens_lookup_ksm : String → Option String)
    (scriptpubkey_to_btc_address get_kusama_address_from_public_key : String → Option String)
    (blockchain : SupportedBlockchain) (accounts : List String) :
    Except String (List String) :=
  match blockchain with
  | .BITCOIN =>
      accounts.mapM (transform_btc_address ens_lookup_btc scriptpubkey_to_btc_address)
  | .ETHEREUM => accounts.mapM (transform_eth_address to_checksum_address ens_lookup_eth)
  | .KUSAMA =>
      accounts.mapM (transform_ksm_address ens_lookup_ksm get_kusama_address_from_public_key)

/-- The load pipeline of `BlockchainAccountsDeleteSchema` (encoding.py
lines 1398-1433): the `validates_schema` hook runs during validation and
the `post_load` transformation runs only if validation raised nothing. -/
def blockchainAccountsDelete_load
    (to_checksum_address : String → Option String)
    (is_valid_btc_address is_valid_kusama_address : String → Bool)
    (ens_lookup_btc ens_lookup_eth ens_lookup_ksm : String → Option String)
    (scriptpubkey_to_btc_address get_kusama_address_from_public_key : String → Option String)
    (blockchain : SupportedBlockchain) (accounts : List String) :
    Except String (List String) :=
  match validate_blockchain_account_schemas to_checksum_address is_valid_btc_address
      is_valid_kusama_address blockchain accounts (fun x => x) with
  | .error e => .error e
  | .ok () =>
      blockchainAccountsDelete_transform_data to_checksum_address ens_lookup_btc
        ens_lookup_eth ens_lookup_ksm scriptpubkey_to_btc_address
        get_kusama_address_from_public_key blockchain accounts

/-- The normalized form an address takes in the duplicate check, given that
its per-address step succeeds. -/
def normOf (normalize : String → Except String String) (a : String) : String :=
  match normalize a with
  | .ok b => b
  | .error _ => a

lemma validateAccountsLoop_dup (normalize : String → Except String String)
    (accounts : List String) :
    ∀ seen : List String, (∀ a ∈ accounts, ∃ b, normalize a = .ok b) →
      ¬ ((accounts.map (normOf normalize)).Nodup ∧
        ∀ x ∈ accounts.map (normOf normalize), x ∉ seen) →
      ∃ d, (d ∈ seen ∧ d ∈ accounts.map (normOf normalize) ∨
          2 ≤ (accounts.map (normOf normalize)).count d) ∧
        validateAccountsLoop normalize seen accounts = .error (dupAddressMsg d) := by
  induction accounts with
  | nil => exact fun seen _ h => absurd ⟨List.nodup_nil, by simp⟩ h
  | cons a rest ih =>
      intro seen hv h
      obtain ⟨b, hb⟩ := hv a (by simp)
      have hnorm : normOf normalize a = b := by rw [normOf, hb]
      rw [validateAccountsLoop, hb]
      dsimp only
      by_cases hmem : b ∈ seen
      · refine ⟨b, Or.inl ⟨hmem, ?_⟩, by rw [if_pos hmem]⟩
        simp [hnorm]
      · have hrec : ¬ ((rest.map (normOf normalize)).Nodup ∧
            ∀ x ∈ rest.map (normOf normalize), x ∉ b :: seen) := by
          rintro ⟨hn, hd⟩
          apply h
          constructor
          · simp only [List.map_cons, hnorm, List.nodup_cons]
            refine ⟨fun hbm => (hd b hbm) (by simp), hn⟩
          · intro x hx
            simp only [List.map_cons, hnorm, List.mem_cons] at hx
            rcases hx with rfl | hx
            · exact hmem
            · exact fun hs => (hd x hx) (by simp [hs])
        obtain ⟨d, hdisj, hloop⟩ := ih (b :: seen) (fun x hx => hv x (by simp [hx])) hrec
        refine ⟨d, ?_, by rw [if_neg hmem]; exact hloop⟩
        rcases hdisj with ⟨hdseen, hdmem⟩ | hdcount
        · rcases List.mem_cons.1 hdseen with rfl | hdseen2
          · refine Or.inr ?_
            have : 1 ≤ (rest.map (normOf normalize)).count d := List.count_pos_iff.mpr hdmem
            simp only [List.map_cons, hnorm, List.count_cons_self]
            omega
          · exact Or.inl ⟨hdseen2, by simp [hdmem]⟩
        · refine Or.inr ?_
          calc 2 ≤ (rest.map (normOf normalize)).count d := hdcount
            _ ≤ ((a :: rest).map (normOf normalize)).count d := by
                simp only [List.map_cons]
                exact List.count_le_count_cons d _ _

/-- C3: for every per-chain batch of account addresses in which every
address passes its per-chain format check, if two addresses normalize to
the same form then whole-schema validation raises the
multiple-appearances error naming that address — and the full delete-schema
load pipeline returns that same error for every behaviour of the ENS
resolvers, so the failure happens before any resolution (and hence before
any deletion). -/
theorem blockchainAccounts_duplicate_rejected
    (to_checksum_address : String → Option String)
    (is_valid_btc_address is_valid_kusama_address : String → Bool)
    (ens_lookup_btc ens_lookup_eth ens_lookup_ksm : String → Option String)
    (scriptpubkey_to_btc_address get_kusama_address_from_public_key : String → Option String)
    (blockchain : SupportedBlockchain) (accounts : List String)
    (hvalid : ∀ a ∈ accounts, ∃ b,
      chainNormalize to_checksum_address is_valid_btc_address is_valid_kusama_address
        blockchain a = .ok b)
    (hdup : ¬ (accounts.map (normOf (chainNormalize to_checksum_address
        is_valid_btc_address is_valid_kusama_address blockchain))).Nodup) :
    ∃ d, 2 ≤ (accounts.map (normOf (chainNormalize to_checksum_address
        is_valid_btc_address is_valid_kusama_address blockchain))).count d ∧
      validate_blockchain_account_schemas to_checksum_address is_valid_btc_address
        is_valid_kusama_address blockchain accounts (fun x => x) = .error (dupAddressMsg d) ∧
      blockchainAccountsDelete_load to_checksum_address is_valid_btc_address
        is_valid_kusama_address ens_lookup_btc ens_lookup_eth ens_lookup_ksm
        scriptpubkey_to_btc_address get_kusama_address_from_public_key blockchain accounts =
        .error (dupAddressMsg d) := by
  obtain ⟨d, hdisj, hloop⟩ := validateAccountsLoop_dup
    (chainNormalize to_checksum_address is_valid_btc_address is_valid_kusama_address blockchain)
    accounts [] hvalid (fun hc => hdup hc.1)
  have hval : validate_blockchain_account_schemas to_checksum_address is_valid_btc_address
      is_valid_kusama_address blockchain accounts (fun x => x) = .error (dupAddressMsg d) := by
    rw [validate_blockchain_account_schemas]
    simpa using hloop
  refine ⟨d, ?_, hval, ?_⟩
  · rcases hdisj with ⟨habs, _⟩ | hc
    · exact absurd habs (List.not_mem_nil d)
    · exact hc
  · rw [blockchainAccountsDelete_load, hval]

/-- Witness for C3: deleting the Ethereum accounts
["alice.eth", "alice.eth"] fails whole-schema validation with the
multiple-appearances error for every resolver behaviour (here: a resolver
returning nothing), before any resolution happens. -/
theorem blockchainAccounts_duplicate_rejected_witness :
    ∃ d, 2 ≤ ((["alice.eth", "alice.eth"].map (normOf (chainNormalize (fun _ => none)
        (fun _ => false) (fun _ => false) .ETHEREUM))).count d) ∧
      validate_blockchain_account_schemas (fun _ => none) (fun _ => false) (fun _ => false)
        .ETHEREUM ["alice.eth", "alice.eth"] (fun x => x) = .error (dupAddressMsg d) ∧
      blockchainAccountsDelete_load (fun _ => none) (fun _ => false) (fun _ => false)
        (fun _ => none) (fun _ => none) (fun _ => none) (fun _ => none) (fun _ => none)
        .ETHEREUM ["alice.eth", "alice.eth"] = .error (dupAddressMsg d) :=
  blockchainAccounts_duplicate_rejected (fun _ => none) (fun _ => false) (fun _ => false)
    (fun _ => none) (fun _ => none) (fun _ => none) (fun _ => none) (fun _ => none)
    .ETHEREUM ["alice.eth", "alice.eth"]
    (by
      intro a ha
      have hae : a = "alice.eth" := by
        rcases List.mem_cons.1 ha with h | h
        · exact h
        · simpa using h
      subst hae
      exact ⟨"alice.eth", rfl⟩)
    (by decide)

/-! ### Server-level error handling -/

/-- Modelled from the spec: the structured failure body produced by
`wrap_in_fail_result` (`rotkehlchen.api.rest`, outside `src/`): a null
result together with a human-readable message. -/
structure ApiResult where
  result : Option String
  message : String
deriving DecidableEq

/-- Modelled from the spec: `wrap_in_fail_result`. -/
def wrap_in_fail_result (message : String) : ApiResult := ⟨none, message⟩

/-- Modelled from the spec: the response produced by `api_response`
(`rotkehlchen.api.rest`): an HTTP status code plus the structured JSON
body. -/
structure Response where
  status : Nat
  body : ApiResult
deriving DecidableEq

/-- Modelled from the spec: `api_response`. -/
def api_response (result : ApiResult) (status_code : Nat) : Response :=
  ⟨status_code, result⟩

/-- A werkzeug `NotFound` exception, which carries a description. -/
structure NotFoundExc where
  description : String

/-- `endpoint_not_found` (server.py lines 226-232): wrap the exception's
description — or the fallback text when the argument is not actually a
`NotFound` — in a failure result with HTTP 404. -/
def endpoint_not_found (e : Option NotFoundExc) : Response :=
  api_response
    (wrap_in_fail_result (match e with
      | some nf => nf.description
      | none => "invalid endpoint"))
    404

/-- `APIServer.unhandled_exception` (server.py lines 284-291): log
critically, then wrap `str(exception)` in a failure result with HTTP 500.
The first component is the list of log records emitted. -/
def unhandled_exception (exception_str : String) : List String × Response :=
  (["Unhandled exception when processing endpoint request"],
    api_response (wrap_in_fail_result exception_str) 500)

/-- Modelled from the spec: Flask dispatch as wired in `APIServer.__init__`
(server.py lines 278-281).  The handler for the matched path runs; a path
with no route invokes the registered `endpoint_not_found` handler with
werkzeug's `NotFound` (carrying its description), and an exception escaping
a handler (`Except.error` with `str(exception)`) invokes
`unhandled_exception`. -/
def serveRequest (routes : List (String × (Unit → Except String Response)))
    (nf_description : String) (path : String) : List String × Response :=
  match routes.find? (fun r => r.1 == path) with
  | none => ([], endpoint_not_found (some ⟨nf_description⟩))
  | some (_, handler) =>
      match handler () with
      | .ok resp => ([], resp)
      | .error exc => unhandled_exception exc

/-- C4: a request to a path no route matches produces the structured
failure body with HTTP 404, and an exception escaping a handler is caught,
logged, and converted into the structured failure body with HTTP 500 whose
message is the exception's textual message. -/
theorem serverErrorPaths_spec (routes : List (String × (Unit → Except String Response)))
    (nf_description path : String) :
    ((∀ r ∈ routes, r.1 ≠ path) →
      serveRequest routes nf_description path =
        ([], ⟨404, ⟨none, nf_description⟩⟩)) ∧
    (∀ p h exc, routes.find? (fun r => r.1 == path) = some (p, h) →
      h () = .error exc →
      serveRequest routes nf_description path =
        (["Unhandled exception when processing endpoint request"],
          ⟨500, ⟨none, exc⟩⟩)) := by
  constructor
  · intro hnone
    have hfind : routes.find? (fun r => r.1 == path) = none := by
      rw [List.find?_eq_none]
      intro r hr
      simpa using hnone r hr
    rw [serveRequest, hfind]
    rfl
  · intro p h exc hfind hexc
    rw [serveRequest, hfind]
    dsimp only
    rw [hexc]
    rfl

/-- Witness for C4: with the single route "/ping" whose handler raises
"boom", the unmapped path "/nope" yields the structured 404 and the mapped
path yields the structured, logged 500 carrying "boom". -/
theorem serverErrorPaths_spec_witness :
    serveRequest [("/ping", fun _ => .error "boom")] "not found" "/nope" =
      ([], ⟨404, ⟨none, "not found"⟩⟩) ∧
    serveRequest [("/ping", fun _ => .error "boom")] "not found" "/ping" =
      (["Unhandled exception when processing endpoint request"],
        ⟨500, ⟨none, "boom"⟩⟩) :=
  ⟨(serverErrorPaths_spec [("/ping", fun _ => .error "boom")] "not found" "/nope").1
      (by decide),
   (serverErrorPaths_spec [("/ping", fun _ => .error "boom")] "not found" "/ping").2
      "/ping" (fun _ => .error "boom") "boom" rfl rfl⟩

/-! ### Request-parsing error handling -/

/-- The `err.messages` payload of a marshmallow `ValidationError`: a
mapping from location to a list of error strings, a plain list of strings,
or any other shape (represented only through `str(err)`). -/
inductive ValidationMessages where
  | asDict (entries : List (String × List String))
  | asList (messages : List String)
  | other
deriving DecidableEq

/-- A marshmallow `ValidationError` as seen by the parsing-error handler:
`str(err)` together with `err.messages`. -/
structure ValidationErrModel where
  strRep : String
  messages : ValidationMessages

/-- Modelled from the spec: `json.dumps` of a list of error strings (the
per-field message lists marshmallow stores in the dict); string escaping is
not modelled. -/
def jsonDumpsList (l : List String) : String :=
  "[" ++ String.intercalate ", " (l.map (fun s => "\"" ++ s ++ "\"")) ++ "]"

/-- The message `handle_request_parsing_error` extracts (server.py lines
246-252): `str(err)` by default, the dumped value under the first key for a
dict, the comma-join for a list.  `none` models the `IndexError` escaping
on an empty dict (`list(err.messages.keys())[0]`), a shape schema
validation never produces. -/
def extractParsingErrorMsg (err : ValidationErrModel) : Option String :=
  match err.messages with
  | .asDict [] => none
  | .asDict (entry :: _) => some (jsonDumpsList entry.2)
  | .asList l => some (String.intercalate "," l)
  | .other => some err.strRep

/-- `handle_request_parsing_error` (server.py lines 235-254): abort the
request with HTTP 400 (Bad Request), a null result and the extracted
message.  Modelled from the spec for `abort`: `flask_restful.abort` turns
the status code and keyword arguments into the structured error
response. -/
def handle_request_parsing_error (err : ValidationErrModel) : Option Response :=
  (extractParsingErrorMsg err).map (fun msg => ⟨400, ⟨none, msg⟩⟩)

/-- C10: every validation error raised while parsing a request (any shape
marshmallow produces: a non-empty dict, a list, or another payload) is
converted into an HTTP 400 response whose structured body carries a null
result and the message extracted from the error. -/
theorem handleRequestParsingError_spec (err : ValidationErrModel) :
    (err.messages ≠ .asDict [] → ∃ msg, extractParsingErrorMsg err = some msg ∧
      handle_request_parsing_error err = some ⟨400, ⟨none, msg⟩⟩) ∧
    (∀ key vals rest2, err.messages = .asDict ((key, vals) :: rest2) →
      handle_request_parsing_error err = some ⟨400, ⟨none, jsonDumpsList vals⟩⟩) ∧
    (∀ l, err.messages = .asList l →
      handle_request_parsing_error err = some ⟨400, ⟨none, String.intercalate "," l⟩⟩) ∧
    (err.messages = .other →
      handle_request_parsing_error err = some ⟨400, ⟨none, err.strRep⟩⟩) := by
  obtain ⟨srep, msgs⟩ := err
  refine ⟨?_, ?_, ?_, ?_⟩
  · intro hne
    cases msgs with
    | asDict entries =>
        cases entries with
        | nil => exact absurd rfl hne
        | cons entry rest2 =>
            exact ⟨jsonDumpsList entry.2, rfl, rfl⟩
    | asList l => exact ⟨String.intercalate "," l, rfl, rfl⟩
    | other => exact ⟨srep, rfl, rfl⟩
  · intro key vals rest2 hmsg
    simp only at hmsg
    subst hmsg
    rfl
  · intro l hmsg
    simp only at hmsg
    subst hmsg
    rfl
  · intro hmsg
    simp only at hmsg
    subst hmsg
    rfl

/-- Witness for C10: a field error {"address": ["bad address"]} aborts with
400, a null result and the dumped message list. -/
theorem handleRequestParsingError_spec_witness :
    handle_request_parsing_error ⟨"err", .asDict [("address", ["bad address"])]⟩ =
      some ⟨400, ⟨none, jsonDumpsList ["bad address"]⟩⟩ :=
  (handleRequestParsingError_spec ⟨"err", .asDict [("address", ["bad address"])]⟩).2.1
    "address" ["bad address"] [] rfl

end RotkiApi
